import Mathlib

/-!
Shallow embedding of the morphologica Adaptive Simulated Annealing optimizer
(`src/morph/Anneal.h`, with the acceptance rule of `src/morph/AdaptiveAnneal.h`
embedded alongside for comparison).

Modelling conventions:
* The numeric template parameter `T` (float/double) is modelled by `ℚ`.
  `std::numeric_limits<T>::epsilon()` is `eps` (the value for double),
  `std::numeric_limits<T>::max()` is `fmaxT`, `lowest()` is `-fmaxT`.
* The transcendental functions of the C++ math library (`std::exp`, `std::log`,
  `std::pow`) are abstracted as fields of an `Oracle`; theorems either hold for
  every oracle or instantiate a concrete one.
* `morph::vVector<T>` is modelled as `List ℚ`. Its elementwise arithmetic,
  `mean`, `max`, `abs`, `signum`, `has_nan_or_inf`, `has_zero` and its
  whole-vector comparisons are repository code that is not under `src/`;
  they are modelled from the spec (every-coordinate semantics for the bounds
  comparisons, per spec section 4.2).
* Randomness: the repository's generator classes (`morph/Random.h`,
  `vVector::randomize`) are not under `src/`. Modelled from the spec
  (section 5): a single uniform stream in `[0,1)` owned by the Annealer,
  `Oracle.draws`, consumed at position `rngIndex`; fixing a seed fixes the
  stream. `vVector::randomize` of a D-vector consumes D consecutive draws and
  `rng_u.get()` consumes one.
* A non-finite value (NaN or inf) of the objective or of a tangent is
  modelled by `Option ℚ` with `none` standing for the non-finite value; the
  probe objective `f_x_plusdelta` is the one place the caller can store NaN.
* `unsigned int` counters are `ℕ` (their 2^32 wrap is never reached in the
  modelled runs); `static_cast<unsigned int>` of a nonnegative value is
  `castUInt` (floor, clamped at zero).
* I/O (std::cout display lines, HDF5 save) is omitted; it does not affect the
  algorithm state.
-/

namespace Morph

/-- Machine epsilon of the scalar type, `std::numeric_limits<double>::epsilon() = 2^-52`. -/
def eps : ℚ := 1 / 2 ^ 52

/-- Largest representable value, `std::numeric_limits<double>::max() = (2 - 2^-52)·2^1023`. -/
def fmaxT : ℚ := (2 ^ 53 - 1) * 2 ^ 971

/-- Truncating cast to `unsigned int` for the nonnegative values the algorithm feeds it
(a negative or huge operand would be C++ UB; the model clamps below at 0). -/
def castUInt (q : ℚ) : ℕ := (Rat.floor q).toNat

/-- Elementwise combination of two vectors (`morph::vVector` binary ops; modelled
from the spec's per-coordinate descriptions). -/
def vmap2 (f : ℚ → ℚ → ℚ) (a b : List ℚ) : List ℚ := List.zipWith f a b

/-- Elementwise combination of three vectors. -/
def vz3 {α : Type} (f : ℚ → ℚ → ℚ → α) : List ℚ → List ℚ → List ℚ → List α
  | x :: xs, y :: ys, z :: zs => f x y z :: vz3 f xs ys zs
  | _, _, _ => []

/-- Mean of a vector (`vVector::mean`). -/
def vmean (v : List ℚ) : ℚ := v.sum / (v.length : ℚ)

/-- Largest element of a vector (`vVector::max`; 0 for the empty vector, which the
algorithm never queries). -/
def vmax : List ℚ → ℚ
  | [] => 0
  | h :: t => t.foldl max h

/-- Sign function used by `vVector::signum`. -/
def rsign (q : ℚ) : ℚ := if 0 < q then 1 else if q < 0 then -1 else 0

/-- Modelled from the spec: whole-vector `operator<=` against another vector
(`x_new <= range_max`), true when every coordinate passes (spec 4.2: the point is
accepted only if every coordinate lies within the bounds; the vectors compared by
the algorithm always have equal lengths). -/
def vleB : List ℚ → List ℚ → Bool
  | [], _ => true
  | _ :: _, [] => true
  | a :: as, b :: bs => decide (a ≤ b) && vleB as bs

/-- Modelled from the spec: whole-vector `operator>=` against another vector
(`x_new >= range_min`), every-coordinate semantics. -/
def vgeB : List ℚ → List ℚ → Bool
  | [], _ => true
  | _ :: _, [] => true
  | a :: as, b :: bs => decide (b ≤ a) && vgeB as bs

/-- Modelled from the spec: whole-vector `operator<` (`T_k < T_f` in `stop_check`),
every-coordinate semantics. -/
def vltB : List ℚ → List ℚ → Bool
  | [], _ => true
  | _ :: _, [] => true
  | a :: as, b :: bs => decide (a < b) && vltB as bs

/-- Modelled from the spec: vector-against-scalar `operator>` (`T_re > T{0}` in
`complete_reanneal`); true when every coordinate is above the scalar (spec 4.5:
a non-positive rescaled temperature is a fatal error). -/
def vposB : List ℚ → Bool
  | [] => true
  | a :: as => decide (0 < a) && vposB as

/-- `std::vector::resize (n, v)`: keep the first `n` elements, pad with `v`. -/
def resizeTo (l : List ℚ) (n : ℕ) (v : ℚ) : List ℚ :=
  l.take n ++ List.replicate (n - l.length) v

/-- Abstraction of the C++ math library over the rational carrier plus the
uniform random stream owned by the Annealer (spec section 5). `draws i` is the
i-th uniform draw in `[0,1)`; a fixed seed fixes the whole stream. -/
structure Oracle where
  rexp : ℚ → ℚ
  rlog : ℚ → ℚ
  rpow : ℚ → ℚ → ℚ
  draws : ℕ → ℚ

/-- `morph::Anneal_State` from Anneal.h. -/
inductive Anneal_State where
  | Unknown
  | NeedToInit
  | NeedToStep
  | NeedToCompute
  | NeedToComputeSet
  | ReadyToStop
deriving DecidableEq, Repr

/-- `morph::Anneal_StopCondition` from Anneal.h. -/
inductive Anneal_StopCondition where
  | Unknown
  | T_k_less_than_T_f
  | T_k_less_than_epsilon
  | T_cost_less_than_epsilon
  | f_x_best_repeated
deriving DecidableEq, Repr

/-- The two fatal errors (`throw std::runtime_error`) of `Anneal::complete_reanneal`. -/
inductive RErr where
  | nanTangents
  | nonPositiveTemp
deriving DecidableEq, Repr

/-- The member state of `morph::Anneal<T>`; field defaults are the C++ member
initializers. `rngIndex` is the position in the owned uniform stream. -/
structure AnnealState where
  downhill : Bool := true
  temperature_ratio_scale : ℚ := 1 / 100000
  temperature_anneal_scale : ℚ := 100
  cost_parameter_scale_ratio : ℚ := 1
  acc_gen_reanneal_ratio : ℚ := 1 / 1000000
  delta_param : ℚ := 1 / 100
  objective_repeat_precision : ℚ := eps
  f_x_best_repeat_max : ℕ := 10
  enable_reanneal : Bool := true
  reanneal_after_steps : ℕ := 100
  exit_at_T_f : Bool := false
  x_cand : List ℚ := []
  f_x_cand : ℚ := 0
  x : List ℚ := []
  f_x : ℚ := 0
  x_best : List ℚ := []
  f_x_best : ℚ := 0
  f_x_best_repeats : ℕ := 0
  x_plusdelta : List ℚ := []
  f_x_plusdelta : Option ℚ := some 0
  num_generated : ℕ := 0
  num_generated_best : ℕ := 0
  num_generated_recently : ℕ := 0
  num_improved : ℕ := 0
  num_worse : ℕ := 0
  num_worse_accepted : ℕ := 0
  num_accepted : ℕ := 0
  num_accepted_best : ℕ := 0
  num_accepted_recently : ℕ := 0
  steps : ℕ := 0
  param_hist_accepted : List (List ℚ) := []
  f_param_hist_accepted : List ℚ := []
  param_hist_rejected : List (List ℚ) := []
  f_param_hist_rejected : List ℚ := []
  state : Anneal_State := .Unknown
  reason_for_exit : Anneal_StopCondition := .Unknown
  D : ℕ := 0
  k : ℕ := 1
  k_f : ℕ := 0
  k_r : ℕ := 0
  T_k : List ℚ := []
  T_0 : List ℚ := []
  T_f : List ℚ := []
  m : List ℚ := []
  n : List ℚ := []
  c : List ℚ := []
  c_cost : List ℚ := []
  T_cost_0 : List ℚ := []
  T_cost : List ℚ := []
  k_cost : ℕ := 0
  range_min : List ℚ := []
  range_max : List ℚ := []
  rdelta : List ℚ := []
  rmeans : List ℚ := []
  tangents : List (Option ℚ) := []
  rngIndex : ℕ := 0
deriving DecidableEq, Repr

/-- `Anneal::min_steps_to_reanneal` (static constexpr 10). -/
def min_steps_to_reanneal : ℕ := 10

/-- The `Anneal` constructor: record the dimension, the per-dimension bounds (one
pair per dimension; extra pairs beyond `D` would be a C++ out-of-bounds write and
are dropped), derive `rdelta`/`rmeans`, seed `x`, `x_cand`, `x_best` with the
initial parameters and wait for `init`. -/
def mkAnneal (initial_params : List ℚ) (ranges : List (ℚ × ℚ)) : AnnealState :=
  let D := initial_params.length
  let lo := resizeTo (ranges.map Prod.fst) D 0
  let hi := resizeTo (ranges.map Prod.snd) D 0
  { D := D
    range_min := lo
    range_max := hi
    rdelta := vmap2 (fun b a => b - a) hi lo
    rmeans := vmap2 (fun b a => (b + a) / 2) hi lo
    x_cand := initial_params
    x_best := initial_params
    x := initial_params
    state := .NeedToInit }

/-- `Anneal::init`: set the sentinel objective values (largest representable when
descending, lowest when ascending), the initial temperatures and the derived
control constants `m`, `n`, `c`, `c_cost`, `T_f`, `k_f`, then ask the caller for
the first objective value. -/
def init (O : Oracle) (s : AnnealState) : AnnealState :=
  let fb : ℚ := if s.downhill then fmaxT else -fmaxT
  let m0 : ℚ := -(O.rlog s.temperature_ratio_scale)
  let n0 : ℚ := O.rlog s.temperature_anneal_scale
  let mv := List.replicate s.D m0
  let nv := List.replicate s.D n0
  let cv := vmap2 (fun mi ni => mi * O.rexp (-ni / (s.D : ℚ))) mv nv
  let ccost := cv.map (fun ci => ci * s.cost_parameter_scale_ratio)
  { s with
    f_x_best := fb
    f_x := fb
    f_x_cand := fb
    x := resizeTo s.x s.D 0
    x_cand := resizeTo s.x_cand s.D 0
    x_best := resizeTo s.x_best s.D 0
    T_0 := List.replicate s.D 1
    T_k := List.replicate s.D 1
    m := mv
    n := nv
    c := cv
    T_f := vmap2 (fun t0 mi => t0 * O.rexp (-mi)) (List.replicate s.D 1) mv
    k_f := castUInt (vmean (nv.map O.rexp))
    tangents := List.replicate s.D (some 1)
    c_cost := ccost
    T_cost_0 := ccost
    T_cost := ccost
    state := .NeedToCompute }

/-- `Anneal::cooling_schedule`: recompute `T_k` from `T_0`, `c`, `k` and `T_cost`
from `T_cost_0`, `c_cost`, `k_cost`, each floored elementwise at `eps`. -/
def cooling_schedule (O : Oracle) (s : AnnealState) : AnnealState :=
  let pk := O.rpow (s.k : ℚ) (1 / (s.D : ℚ))
  let pkc := O.rpow (s.k_cost : ℚ) (1 / (s.D : ℚ))
  { s with
    T_k := vmap2 (fun t0 ci => max (t0 * O.rexp (-(ci * pk))) eps) s.T_0 s.c
    T_cost := vmap2 (fun t0 ci => max (t0 * O.rexp (-(ci * pkc))) eps) s.T_cost_0 s.c_cost }

/-- The accept decision of `Anneal::acceptance_check` (Anneal.h lines 407-410):
`p = min(1, exp(-(f_x_cand - f_x)/(eps + T_cost.mean())))`, one uniform draw `u`,
accepted iff `p >= u`. -/
def annealAcceptDecision (rexp : ℚ → ℚ) (fxc fx tcost_mean u : ℚ) : Bool :=
  decide (u ≤ min 1 (rexp (-(fxc - fx) / (eps + tcost_mean))))

/-- The accept decision of `AdaptiveAnneal::acceptance_check` (AdaptiveAnneal.h
lines 284-286): `p = exp(-(f_x_cand - f_x)/(eps + temp_cost.mean()))` with no
clamp, accepted iff `p > u`. -/
def adaptiveAcceptDecision (rexp : ℚ → ℚ) (fxc fx tcost_mean u : ℚ) : Bool :=
  decide (u < rexp (-(fxc - fx) / (eps + tcost_mean)))

/-- `Anneal::acceptance_check`: classify the candidate, draw one uniform number,
accept iff `min(1,p) >= u`; on acceptance update the counters, the best-repeat
counter, possibly `x_best`/`f_x_best`, move `x_cand` into `x` and append to the
accepted history; on rejection append the current point to the rejected history. -/
def acceptance_check (O : Oracle) (s : AnnealState) : AnnealState :=
  let better : Bool :=
    (s.downhill && decide (s.f_x_cand < s.f_x)) || (!s.downhill && decide (s.f_x < s.f_x_cand))
  let u := O.draws s.rngIndex
  let accepted := annealAcceptDecision O.rexp s.f_x_cand s.f_x (vmean s.T_cost) u
  let s1 := { s with
    rngIndex := s.rngIndex + 1
    num_improved := s.num_improved + (if better then 1 else 0)
    num_worse := s.num_worse + (if better then 0 else 1)
    num_worse_accepted := s.num_worse_accepted + (if !better && accepted then 1 else 0) }
  if accepted then
    let s2 := { s1 with
      k_cost := s1.k_cost + 1
      num_accepted := s1.num_accepted + 1
      num_accepted_recently := s1.num_accepted_recently + 1
      f_x_best_repeats := s1.f_x_best_repeats +
        (if |s1.f_x_cand - s1.f_x_best| ≤ s1.objective_repeat_precision then 1 else 0) }
    let s3 :=
      if (s2.downhill = true ∧ s2.f_x_cand - s2.f_x_best + s2.objective_repeat_precision < 0)
         ∨ (s2.downhill = false ∧ 0 < s2.f_x_cand - s2.f_x_best - s2.objective_repeat_precision) then
        { s2 with
          f_x_best_repeats := 0
          x_best := s2.x_cand
          num_accepted_best := s2.num_accepted
          num_generated_best := s2.num_generated
          num_accepted_recently := 0
          num_generated_recently := 0
          f_x_best := s2.f_x_cand }
      else s2
    { s3 with
      x := s3.x_cand
      f_x := s3.f_x_cand
      param_hist_accepted := s3.param_hist_accepted ++ [s3.x_cand]
      f_param_hist_accepted := s3.f_param_hist_accepted ++ [s3.f_x_cand] }
  else
    { s1 with
      param_hist_rejected := s1.param_hist_rejected ++ [s1.x]
      f_param_hist_rejected := s1.f_param_hist_rejected ++ [s1.f_x] }

/-- `Anneal::generate_delta_parameter`: per coordinate, probe at `x·(1+delta_param)`;
if that leaves the bounds, flip the sign and probe at `x·(1-delta_param)` (without
re-checking the flipped value). -/
def generate_delta_parameter (s : AnnealState) (x_start : List ℚ) : List ℚ :=
  vz3 (fun xs lo hi =>
      let xp := xs * (1 + s.delta_param)
      if hi < xp ∨ xp < lo then xs * (1 - s.delta_param) else xp)
    x_start s.range_min s.range_max

/-- One candidate draw of `Anneal::generate_next` (Anneal.h lines 358-363): D
uniform draws mapped through Ingber's generating transform and added to `x`. -/
def genCandidate (O : Oracle) (s : AnnealState) (idx : ℕ) : List ℚ :=
  let u := (List.range s.D).map (fun j => O.draws (idx + j))
  let y := vz3 (fun ui tk _z =>
      rsign (ui - 1/2) * tk * (O.rpow (1 / tk + 1) (|2 * ui - 1|) - 1))
    u s.T_k u
  vmap2 (fun xi yi => xi + yi) s.x y

/-- The retry loop of `Anneal::generate_next`: redraw until every coordinate of
the candidate lies within the bounds. The C++ loop is unbounded; the model carries
fuel and returns the candidate together with the advanced stream position. -/
def generate_loop (O : Oracle) (s : AnnealState) : ℕ → ℕ → Option (List ℚ × ℕ)
  | 0, _ => none
  | fuel + 1, idx =>
    let xn := genCandidate O s idx
    if vleB xn s.range_max && vgeB xn s.range_min then some (xn, idx + s.D)
    else generate_loop O s fuel (idx + s.D)

/-- `Anneal::generate_next`: place the in-bounds candidate into `x_cand` and count
it as generated. -/
def generate_next (O : Oracle) (fuel : ℕ) (s : AnnealState) : Option AnnealState :=
  match generate_loop O s fuel s.rngIndex with
  | none => none
  | some (xn, idx) => some { s with
      x_cand := xn
      rngIndex := idx
      num_generated := s.num_generated + 1
      num_generated_recently := s.num_generated_recently + 1 }

/-- `Anneal::accepted_vs_generated`, exactly as written in the source
(Anneal.h line 576): `num_accepted_recently + 1/(num_generated_recently + 1)` —
note the C++ operator precedence. -/
def accepted_vs_generated (s : AnnealState) : ℚ :=
  (s.num_accepted_recently : ℚ) + 1 / ((s.num_generated_recently : ℚ) + 1)

/-- `Anneal::reanneal_test`: within the grace period never reanneal; afterwards
return false when the step count is below the forced ceiling and the
accepted-vs-generated figure is at or above the threshold; otherwise reset the
recent counters when the figure is below the threshold, move `x`/`f_x` back to
the best, compute the probe point and signal a reanneal. -/
def reanneal_test (s : AnnealState) : Bool × AnnealState :=
  if s.k_r < min_steps_to_reanneal then (false, s)
  else if s.k_r < s.reanneal_after_steps ∧ s.acc_gen_reanneal_ratio ≤ accepted_vs_generated s then
    (false, s)
  else
    let s1 := if accepted_vs_generated s < s.acc_gen_reanneal_ratio then
        { s with num_accepted_recently := 0, num_generated_recently := 0 }
      else s
    let s2 := { s1 with x := s1.x_best, f_x := s1.f_x_best }
    (true, { s2 with x_plusdelta := generate_delta_parameter s2 s2.x })

/-- The tangent estimate of `Anneal::complete_reanneal` (line 485):
`(f_x_plusdelta - f_x) / (x_plusdelta - x + eps)`. `none` is a non-finite entry:
a NaN probe objective poisons every entry, a zero denominator produces inf. -/
def tangentsOf (s : AnnealState) : List (Option ℚ) :=
  List.zipWith (fun xp xi =>
      match s.f_x_plusdelta with
      | none => none
      | some fv =>
        let d := xp - xi + eps
        if d = 0 then none else some ((fv - s.f_x) / d))
    s.x_plusdelta s.x

/-- `Anneal::complete_reanneal`: store the tangents; throw on a non-finite entry;
on a zero entry double `delta_param` and defer; otherwise rescale `T_k` and
back-solve `k`, throwing if the rescaled temperature is not positive, then rescale
`T_cost_0`, `k_cost`, `T_cost` and clear the steps-since-reanneal counter. A thrown
error carries the mutated-so-far state (the C++ object keeps it). -/
def complete_reanneal (O : Oracle) (s : AnnealState) : (RErr × AnnealState) ⊕ AnnealState :=
  let tg := tangentsOf s
  let s0 := { s with tangents := tg }
  if tg.any (fun t => t.isNone) then .inl (.nanTangents, s0)
  else
    let ts := tg.map (fun t => t.getD 0)
    if ts.any (fun t => t = 0) then .inr { s0 with delta_param := s0.delta_param * 2 }
    else
      let max_tangent := vmax (ts.map (fun t => |t|))
      let T_re := vmap2 (fun tk ti => |tk * (max_tangent / ti)|) s0.T_k ts
      if vposB T_re then
        let kv := vz3 (fun t0 tre ci => (O.rlog (t0 / tre) / ci) ^ s0.D) s0.T_0 T_re s0.c
        let s1 := { s0 with k := castUInt (vmean kv), T_k := T_re }
        let M1 := vmax ([s1.f_x, s1.f_x_best, s1.f_x_best - s1.f_x, eps].map (fun q => |q|))
        let tc0 := s1.T_cost_0.map (fun t => min t M1)
        let M2 := vmax [|s1.f_x_best - s1.f_x|, vmax s1.T_cost, eps]
        let tmp1 := tc0.map (fun t => min t M2)
        let tvdb3 := vmap2 (fun a b => |O.rlog ((a + eps) / b)|) tc0 tmp1
        let kc := castUInt (eps + vmean (vmap2 (fun tv cc => (tv / cc) ^ s1.D) tvdb3 s1.c_cost))
        let pkc := O.rpow (kc : ℚ) (1 / (s1.D : ℚ))
        let tcost := vmap2 (fun t0 cc => max (t0 * O.rexp (-(cc * pkc))) eps) tc0 s1.c_cost
        .inr { s1 with T_cost_0 := tc0, k_cost := kc, T_cost := tcost, k_r := 0 }
      else .inl (.nonPositiveTemp, s0)

/-- `Anneal::stop_check`, in source order: the optional `T_k < T_f` exit, then
`T_k[0] <= eps`, then `T_cost[0] <= eps`, then the best-repeat limit. Returns the
recorded stop condition, `none` when the run continues. -/
def stop_check (s : AnnealState) : Option Anneal_StopCondition :=
  if s.exit_at_T_f && vltB s.T_k s.T_f then some .T_k_less_than_T_f
  else if s.T_k.getD 0 0 ≤ eps then some .T_k_less_than_epsilon
  else if s.T_cost.getD 0 0 ≤ eps then some .T_cost_less_than_epsilon
  else if s.f_x_best_repeat_max ≤ s.f_x_best_repeats then some .f_x_best_repeated
  else none

/-- Result of one `Anneal::step` call: a new state, a thrown error together with
the state the object is left in, or fuel exhaustion of the generation loop. -/
inductive StepResult where
  | ok : AnnealState → StepResult
  | err : RErr → AnnealState → StepResult
  | fuelOut : StepResult
deriving DecidableEq, Repr

/-- The state carried by a step result, when there is one. -/
def stateOf : StepResult → Option AnnealState
  | .ok s => some s
  | .err _ s => some s
  | .fuelOut => none

/-- `Anneal::step`: count the call, run the stop checks, complete a pending
reanneal, run the cooling schedule, the acceptance check and candidate
generation, advance `k` and `k_r`, then run the reanneal test to pick the next
protocol state. -/
def step (O : Oracle) (fuel : ℕ) (s : AnnealState) : StepResult :=
  let s1 := { s with steps := s.steps + 1 }
  match stop_check s1 with
  | some r => .ok { s1 with state := .ReadyToStop, reason_for_exit := r }
  | none =>
    let cr : (RErr × AnnealState) ⊕ AnnealState :=
      if s1.state = .NeedToComputeSet then
        match complete_reanneal O s1 with
        | .inl es => .inl es
        | .inr s2 => .inr { s2 with state := .NeedToStep }
      else .inr s1
    match cr with
    | .inl (e, se) => .err e se
    | .inr s2 =>
      let s3 := acceptance_check O (cooling_schedule O s2)
      match generate_next O fuel s3 with
      | none => .fuelOut
      | some s4 =>
        let s5 := { s4 with k := s4.k + 1, k_r := s4.k_r + 1 }
        let rt := if s5.enable_reanneal then reanneal_test s5 else (false, s5)
        .ok { rt.2 with state := if rt.1 then .NeedToComputeSet else .NeedToCompute }

/-- The caller's half of the protocol (spec section 4): supply `f_x_cand` when the
Annealer needs an objective, `f_x_plusdelta` when it needs the probe objective.
`f` is the objective on candidates, `fp` its probe-point form which may produce a
non-finite value (`none`). -/
def clientFill (f : List ℚ → ℚ) (fp : List ℚ → Option ℚ) (s : AnnealState) : AnnealState :=
  match s.state with
  | .NeedToCompute => { s with f_x_cand := f s.x_cand }
  | .NeedToComputeSet => { s with f_x_plusdelta := fp s.x_plusdelta }
  | _ => s

/-- Run the caller loop for at most `nsteps` calls to `step`, stopping at
`ReadyToStop` as client code does. -/
def runSteps (O : Oracle) (f : List ℚ → ℚ) (fp : List ℚ → Option ℚ) (fuel : ℕ) :
    ℕ → AnnealState → StepResult
  | 0, s => .ok s
  | nsteps + 1, s =>
    match step O fuel (clientFill f fp s) with
    | .ok s1 => if s1.state = .ReadyToStop then .ok s1 else runSteps O f fp fuel nsteps s1
    | r => r

/-! ## Concrete fixtures used by witnesses and counterexamples -/

/-- A concrete oracle: the transcendental stand-ins are constant (`exp ↦ 1`,
`pow ↦ 1`, `log` maps the two tunables to ∓1) and every uniform draw is 1/2.
With it the generating transform collapses to a zero offset, so each generation
attempt succeeds immediately and every candidate is accepted. -/
def constOracle : Oracle :=
  { rexp := fun _ => 1
    rlog := fun q => if q = 1 / 100000 then -1 else if q = 100 then 1 else 0
    rpow := fun _ _ => 1
    draws := fun _ => 1 / 2 }

/-- The spec's scenario state: D = 1, bounds [0,10], initial x = 5, downhill,
with `f_x_best_repeat_max` set to 1 before `init`. -/
def s0c : AnnealState := init constOracle { mkAnneal [5] [(0, 10)] with f_x_best_repeat_max := 1 }

/-- A reachable reanneal state: one dimension with bounds [0.995, 1], best point
at the upper bound, 100 steps since the last reanneal (forcing the reanneal). -/
def cex1 : AnnealState :=
  { D := 1, range_min := [199/200], range_max := [1], x := [1], x_best := [1]
    f_x := 3, f_x_best := 3, k_r := 100 }

/-- A state after the grace period: 1 recently-accepted out of 2,000,000
recently-generated, 20 steps since the last reanneal. -/
def cex4 : AnnealState :=
  { D := 1, num_accepted_recently := 1, num_generated_recently := 2000000, k_r := 20 }

/-- A post-reanneal state with non-uniform temperatures: dimension 0 is hot (1)
while dimension 1 has decayed to eps/2, below the numeric floor. -/
def cex5 : AnnealState :=
  { D := 2, state := .NeedToCompute, T_k := [1, eps/2], T_cost := [1, 1], T_0 := [1, 1]
    T_f := [1, 1], c := [1, 1], c_cost := [1, 1], T_cost_0 := [1, 1]
    x := [1/2, 1/2], x_cand := [1/2, 1/2], x_best := [1/2, 1/2]
    range_min := [0, 0], range_max := [1, 1]
    f_x := 1, f_x_cand := 1, f_x_best := 1, k := 5, k_r := 1 }

/-- The same state with the dimensions swapped: the floored temperature first. -/
def wit5 : AnnealState := { cex5 with T_k := [eps/2, 1] }

/-- A pending-reanneal state in which the caller stored NaN as the probe
objective. -/
def wit6 : AnnealState :=
  { D := 1, state := .NeedToComputeSet, f_x_plusdelta := none, x := [1/2]
    x_plusdelta := [51/100], T_k := [1], T_cost := [1], f_x := 1, f_x_best := 1 }

/-- A pending-reanneal state whose probe objective equals `f_x` (zero tangent). -/
def wit7 : AnnealState :=
  { D := 1, state := .NeedToComputeSet, f_x_plusdelta := some 1, f_x := 1, x := [1/2]
    x_plusdelta := [51/100], T_k := [1], T_cost := [1] }

/-- A concrete exponential stand-in whose value at the acceptance argument −1 is
exactly 1/2, putting the acceptance probability exactly at the uniform draw. -/
def rexpHalf : ℚ → ℚ := fun q => if q = -1 then 1/2 else 1

/-- Two textually separate copies of the same seeded oracle, for the
determinism witness. -/
def seededOracleA : Oracle :=
  { rexp := fun q => 1 + q, rlog := fun q => q - 1, rpow := fun a b => a + b
    draws := fun i => 1 / (i + 2 : ℚ) }

/-- Second copy; componentwise equal to `seededOracleA` by definition. -/
def seededOracleB : Oracle :=
  { rexp := fun q => 1 + q, rlog := fun q => q - 1, rpow := fun a b => a + b
    draws := fun i => 1 / (i + 2 : ℚ) }

/-! ## Helper lemmas -/

lemma vz3_getD {α : Type} (f : ℚ → ℚ → ℚ → α) (d : α) :
    ∀ (a b c : List ℚ) (i : ℕ), i < a.length → i < b.length → i < c.length →
      (vz3 f a b c).getD i d = f (a.getD i 0) (b.getD i 0) (c.getD i 0) := by
  intro a
  induction a with
  | nil => intro b c i h1; simp at h1
  | cons x xs ih =>
    intro b c i h1 h2 h3
    cases b with
    | nil => simp at h2
    | cons y ys =>
      cases c with
      | nil => simp at h3
      | cons z zs =>
        cases i with
        | zero => rfl
        | succ j =>
          simp only [vz3, List.getD_cons_succ]
          exact ih ys zs j (by simpa using h1) (by simpa using h2) (by simpa using h3)

lemma vleB_getD : ∀ (a b : List ℚ), vleB a b = true →
    ∀ i, i < a.length → i < b.length → a.getD i 0 ≤ b.getD i 0 := by
  intro a
  induction a with
  | nil => intro b _ i h1; simp at h1
  | cons x xs ih =>
    intro b h i h1 h2
    cases b with
    | nil => simp at h2
    | cons y ys =>
      rw [vleB, Bool.and_eq_true, decide_eq_true_eq] at h
      cases i with
      | zero => exact h.1
      | succ j =>
        exact ih ys h.2 j (by simpa using h1) (by simpa using h2)

lemma vgeB_getD : ∀ (a b : List ℚ), vgeB a b = true →
    ∀ i, i < a.length → i < b.length → b.getD i 0 ≤ a.getD i 0 := by
  intro a
  induction a with
  | nil => intro b _ i h1; simp at h1
  | cons x xs ih =>
    intro b h i h1 h2
    cases b with
    | nil => simp at h2
    | cons y ys =>
      rw [vgeB, Bool.and_eq_true, decide_eq_true_eq] at h
      cases i with
      | zero => exact h.1
      | succ j =>
        exact ih ys h.2 j (by simpa using h1) (by simpa using h2)

lemma vz3_length {α : Type} (f : ℚ → ℚ → ℚ → α) :
    ∀ (a b c : List ℚ), (vz3 f a b c).length = min a.length (min b.length c.length) := by
  intro a
  induction a with
  | nil => intro b c; simp [vz3]
  | cons x xs ih =>
    intro b c
    cases b with
    | nil => simp [vz3]
    | cons y ys =>
      cases c with
      | nil => simp [vz3]
      | cons z zs => simp [vz3, ih ys zs]; omega

lemma genCandidate_length {O : Oracle} {s : AnnealState}
    (hx : s.x.length = s.D) (hT : s.T_k.length = s.D) (idx : ℕ) :
    (genCandidate O s idx).length = s.D := by
  unfold genCandidate vmap2
  rw [List.length_zipWith, vz3_length, List.length_map, List.length_range, hx, hT]
  omega

lemma generate_loop_bounds {O : Oracle} {s : AnnealState} :
    ∀ {fuel idx xn idx2}, generate_loop O s fuel idx = some (xn, idx2) →
      vleB xn s.range_max = true ∧ vgeB xn s.range_min = true
        ∧ ∃ j, xn = genCandidate O s j := by
  intro fuel
  induction fuel with
  | zero => intro idx xn idx2 h; simp [generate_loop] at h
  | succ n ih =>
    intro idx xn idx2 h
    unfold generate_loop at h
    by_cases hc : vleB (genCandidate O s idx) s.range_max && vgeB (genCandidate O s idx) s.range_min
    · simp only [hc, if_true] at h
      obtain ⟨rfl, -⟩ : genCandidate O s idx = xn ∧ idx + s.D = idx2 := by
        simpa using h
      exact ⟨(Bool.and_eq_true _ _).mp hc |>.1, (Bool.and_eq_true _ _).mp hc |>.2, idx, rfl⟩
    · simp only [hc, if_false] at h
      exact ih h

/-! ## Preservation lemmas: which phases can touch `f_x_best` -/

lemma clientFill_core (f : List ℚ → ℚ) (fp : List ℚ → Option ℚ) (s : AnnealState) :
    (clientFill f fp s).f_x_best = s.f_x_best
    ∧ (clientFill f fp s).downhill = s.downhill
    ∧ (clientFill f fp s).objective_repeat_precision = s.objective_repeat_precision := by
  unfold clientFill
  split <;> exact ⟨rfl, rfl, rfl⟩

lemma generate_next_core {O : Oracle} {fuel : ℕ} {s s2 : AnnealState}
    (h : generate_next O fuel s = some s2) :
    s2.f_x_best = s.f_x_best ∧ s2.downhill = s.downhill
    ∧ s2.objective_repeat_precision = s.objective_repeat_precision := by
  unfold generate_next at h
  rcases hl : generate_loop O s fuel s.rngIndex with - | ⟨xn, idx⟩ <;> rw [hl] at h
  · cases h
  · cases h; exact ⟨rfl, rfl, rfl⟩

lemma reanneal_test_core (s : AnnealState) :
    (reanneal_test s).2.f_x_best = s.f_x_best
    ∧ (reanneal_test s).2.downhill = s.downhill
    ∧ (reanneal_test s).2.objective_repeat_precision = s.objective_repeat_precision := by
  unfold reanneal_test
  dsimp only
  split
  · exact ⟨rfl, rfl, rfl⟩
  · split
    · exact ⟨rfl, rfl, rfl⟩
    · split <;> exact ⟨rfl, rfl, rfl⟩

lemma complete_reanneal_inl_core {O : Oracle} {s : AnnealState} {e : RErr} {s2 : AnnealState}
    (h : complete_reanneal O s = .inl (e, s2)) :
    s2.f_x_best = s.f_x_best ∧ s2.downhill = s.downhill
    ∧ s2.objective_repeat_precision = s.objective_repeat_precision := by
  unfold complete_reanneal at h
  dsimp only at h
  split at h
  · cases h; exact ⟨rfl, rfl, rfl⟩
  · split at h
    · cases h
    · split at h
      · cases h
      · cases h; exact ⟨rfl, rfl, rfl⟩

lemma complete_reanneal_inr_core {O : Oracle} {s s2 : AnnealState}
    (h : complete_reanneal O s = .inr s2) :
    s2.f_x_best = s.f_x_best ∧ s2.downhill = s.downhill
    ∧ s2.objective_repeat_precision = s.objective_repeat_precision := by
  unfold complete_reanneal at h
  dsimp only at h
  split at h
  · cases h
  · split at h
    · cases h; exact ⟨rfl, rfl, rfl⟩
    · split at h
      · cases h; exact ⟨rfl, rfl, rfl⟩
      · cases h

lemma acceptance_check_core (O : Oracle) (t : AnnealState)
    (hprec : 0 ≤ t.objective_repeat_precision) :
    (acceptance_check O t).downhill = t.downhill
    ∧ (acceptance_check O t).objective_repeat_precision = t.objective_repeat_precision
    ∧ (t.downhill = true → (acceptance_check O t).f_x_best ≤ t.f_x_best)
    ∧ (t.downhill = false → t.f_x_best ≤ (acceptance_check O t).f_x_best) := by
  unfold acceptance_check
  dsimp only
  split
  · split
    · next hcond =>
      refine ⟨rfl, rfl, ?_, ?_⟩
      · intro hd
        dsimp only
        rcases hcond with ⟨-, h2⟩ | ⟨hfalse, -⟩
        · linarith
        · rw [hd] at hfalse; cases hfalse
      · intro hd
        dsimp only
        rcases hcond with ⟨htrue, -⟩ | ⟨-, h2⟩
        · rw [hd] at htrue; cases htrue
        · linarith
    · exact ⟨rfl, rfl, fun _ => le_refl _, fun _ => le_refl _⟩
  · exact ⟨rfl, rfl, fun _ => le_refl _, fun _ => le_refl _⟩

lemma cooling_schedule_core (O : Oracle) (s : AnnealState) :
    (cooling_schedule O s).f_x_best = s.f_x_best
    ∧ (cooling_schedule O s).downhill = s.downhill
    ∧ (cooling_schedule O s).objective_repeat_precision = s.objective_repeat_precision :=
  ⟨rfl, rfl, rfl⟩

lemma step_core {O : Oracle} {fuel : ℕ} {s s2 : AnnealState}
    (hprec : 0 ≤ s.objective_repeat_precision)
    (h : stateOf (step O fuel s) = some s2) :
    s2.downhill = s.downhill
    ∧ s2.objective_repeat_precision = s.objective_repeat_precision
    ∧ (s.downhill = true → s2.f_x_best ≤ s.f_x_best)
    ∧ (s.downhill = false → s.f_x_best ≤ s2.f_x_best) := by
  have hmid : ∀ (u : AnnealState), u.f_x_best = s.f_x_best → u.downhill = s.downhill →
      u.objective_repeat_precision = s.objective_repeat_precision →
      ∀ v : AnnealState,
        stateOf (match generate_next O fuel (acceptance_check O (cooling_schedule O u)) with
          | none => StepResult.fuelOut
          | some s4 =>
            let s5 := { s4 with k := s4.k + 1, k_r := s4.k_r + 1 }
            let rt := if s5.enable_reanneal then reanneal_test s5 else (false, s5)
            StepResult.ok { rt.2 with
              state := if rt.1 then .NeedToComputeSet else .NeedToCompute }) = some v →
        v.downhill = s.downhill
        ∧ v.objective_repeat_precision = s.objective_repeat_precision
        ∧ (s.downhill = true → v.f_x_best ≤ s.f_x_best)
        ∧ (s.downhill = false → s.f_x_best ≤ v.f_x_best) := by
    intro u hb hd hp v hv
    have hacc := acceptance_check_core O (cooling_schedule O u)
      (by rw [(cooling_schedule_core O u).2.2, hp]; exact hprec)
    have hfb : (acceptance_check O (cooling_schedule O u)).f_x_best ≤ s.f_x_best
        ∨ s.downhill = false := by
      by_cases hdq : s.downhill = true
      · left
        have h1 : (cooling_schedule O u).downhill = true := by
          rw [(cooling_schedule_core O u).2.1, hd, hdq]
        have := hacc.2.2.1 h1
        rw [(cooling_schedule_core O u).1, hb] at this
        exact this
      · right
        exact Bool.not_eq_true _ ▸ (by revert hdq; cases s.downhill <;> simp)
    have hfb2 : s.f_x_best ≤ (acceptance_check O (cooling_schedule O u)).f_x_best
        ∨ s.downhill = true := by
      by_cases hdq : s.downhill = false
      · left
        have h1 : (cooling_schedule O u).downhill = false := by
          rw [(cooling_schedule_core O u).2.1, hd, hdq]
        have := hacc.2.2.2 h1
        rw [(cooling_schedule_core O u).1, hb] at this
        exact this
      · right
        revert hdq; cases s.downhill <;> simp
    rcases hg : generate_next O fuel (acceptance_check O (cooling_schedule O u))
        with - | s4 <;> rw [hg] at hv
    · exact Option.noConfusion hv
    · obtain rfl := Option.some.inj hv
      obtain ⟨hg1, hg2, hg3⟩ := generate_next_core hg
      have hrt := reanneal_test_core { s4 with k := s4.k + 1, k_r := s4.k_r + 1 }
      by_cases he : s4.enable_reanneal = true
      · have hif : (if ({ s4 with k := s4.k + 1, k_r := s4.k_r + 1 } : AnnealState).enable_reanneal
            then reanneal_test { s4 with k := s4.k + 1, k_r := s4.k_r + 1 }
            else (false, { s4 with k := s4.k + 1, k_r := s4.k_r + 1 }))
            = reanneal_test { s4 with k := s4.k + 1, k_r := s4.k_r + 1 } := if_pos he
        refine ⟨?_, ?_, ?_, ?_⟩
        · show (_ : AnnealState).downhill = s.downhill
          dsimp only
          rw [hif, hrt.2.1]
          show s4.downhill = s.downhill
          rw [hg2, hacc.1, (cooling_schedule_core O u).2.1, hd]
        · show (_ : AnnealState).objective_repeat_precision = s.objective_repeat_precision
          dsimp only
          rw [hif, hrt.2.2]
          show s4.objective_repeat_precision = s.objective_repeat_precision
          rw [hg3, hacc.2.1, (cooling_schedule_core O u).2.2, hp]
        · intro hdown
          show (_ : AnnealState).f_x_best ≤ s.f_x_best
          dsimp only
          rw [hif, hrt.1]
          show s4.f_x_best ≤ s.f_x_best
          rw [hg1]
          rcases hfb with hle | hfalse
          · exact hle
          · rw [hdown] at hfalse; cases hfalse
        · intro hdown
          show s.f_x_best ≤ (_ : AnnealState).f_x_best
          dsimp only
          rw [hif, hrt.1]
          show s.f_x_best ≤ s4.f_x_best
          rw [hg1]
          rcases hfb2 with hle | htrue
          · exact hle
          · rw [hdown] at htrue; cases htrue
      · have hif : (if ({ s4 with k := s4.k + 1, k_r := s4.k_r + 1 } : AnnealState).enable_reanneal
            then reanneal_test { s4 with k := s4.k + 1, k_r := s4.k_r + 1 }
            else (false, { s4 with k := s4.k + 1, k_r := s4.k_r + 1 }))
            = (false, { s4 with k := s4.k + 1, k_r := s4.k_r + 1 }) := if_neg he
        refine ⟨?_, ?_, ?_, ?_⟩
        · show (_ : AnnealState).downhill = s.downhill
          dsimp only
          rw [hif]
          show s4.downhill = s.downhill
          rw [hg2, hacc.1, (cooling_schedule_core O u).2.1, hd]
        · show (_ : AnnealState).objective_repeat_precision = s.objective_repeat_precision
          dsimp only
          rw [hif]
          show s4.objective_repeat_precision = s.objective_repeat_precision
          rw [hg3, hacc.2.1, (cooling_schedule_core O u).2.2, hp]
        · intro hdown
          show (_ : AnnealState).f_x_best ≤ s.f_x_best
          dsimp only
          rw [hif]
          show s4.f_x_best ≤ s.f_x_best
          rw [hg1]
          rcases hfb with hle | hfalse
          · exact hle
          · rw [hdown] at hfalse; cases hfalse
        · intro hdown
          show s.f_x_best ≤ (_ : AnnealState).f_x_best
          dsimp only
          rw [hif]
          show s.f_x_best ≤ s4.f_x_best
          rw [hg1]
          rcases hfb2 with hle | htrue
          · exact hle
          · rw [hdown] at htrue; cases htrue
  unfold step at h
  dsimp only at h
  rcases hsc : stop_check { s with steps := s.steps + 1 } with - | r <;> rw [hsc] at h
  case some =>
    obtain rfl := Option.some.inj h
    exact ⟨rfl, rfl, fun _ => le_refl _, fun _ => le_refl _⟩
  case none =>
    by_cases hst : s.state = Anneal_State.NeedToComputeSet
    · rw [if_pos hst] at h
      rcases hcr : complete_reanneal O { s with steps := s.steps + 1 } with ⟨e, se⟩ | sr <;>
        rw [hcr] at h
      · obtain rfl := Option.some.inj h
        obtain ⟨h1, h2, h3⟩ := complete_reanneal_inl_core hcr
        exact ⟨h2, h3, fun _ => le_of_eq h1, fun _ => le_of_eq h1.symm⟩
      · obtain ⟨h1, h2, h3⟩ := complete_reanneal_inr_core hcr
        exact hmid { sr with state := .NeedToStep } h1 h2 h3 _ h
    · rw [if_neg hst] at h
      exact hmid { s with steps := s.steps + 1 } rfl rfl rfl _ h

lemma runSteps_core {O : Oracle} {f : List ℚ → ℚ} {fp : List ℚ → Option ℚ} {fuel : ℕ} :
    ∀ (n : ℕ) (s s2 : AnnealState), 0 ≤ s.objective_repeat_precision →
      stateOf (runSteps O f fp fuel n s) = some s2 →
      s2.downhill = s.downhill
      ∧ s2.objective_repeat_precision = s.objective_repeat_precision
      ∧ (s.downhill = true → s2.f_x_best ≤ s.f_x_best)
      ∧ (s.downhill = false → s.f_x_best ≤ s2.f_x_best) := by
  intro n
  induction n with
  | zero =>
    intro s s2 hprec h
    obtain rfl := Option.some.inj h
    exact ⟨rfl, rfl, fun _ => le_refl _, fun _ => le_refl _⟩
  | succ m ih =>
    intro s s2 hprec h
    unfold runSteps at h
    obtain ⟨hcf1, hcf2, hcf3⟩ := clientFill_core f fp s
    have hp2 : 0 ≤ (clientFill f fp s).objective_repeat_precision := by
      rw [hcf3]; exact hprec
    cases hst : step O fuel (clientFill f fp s) with
    | ok t1 =>
      rw [hst] at h
      dsimp only at h
      have hcore := @step_core O fuel (clientFill f fp s) t1 hp2 (by rw [hst]; rfl)
      by_cases hrs : t1.state = Anneal_State.ReadyToStop
      · rw [if_pos hrs] at h
        obtain rfl := Option.some.inj h
        refine ⟨by rw [hcore.1, hcf2], by rw [hcore.2.1, hcf3], ?_, ?_⟩
        · intro hd
          calc t1.f_x_best ≤ (clientFill f fp s).f_x_best := hcore.2.2.1 (by rw [hcf2, hd])
            _ = s.f_x_best := hcf1
        · intro hd
          calc s.f_x_best = (clientFill f fp s).f_x_best := hcf1.symm
            _ ≤ t1.f_x_best := hcore.2.2.2 (by rw [hcf2, hd])
      · rw [if_neg hrs] at h
        have hrec := ih t1 s2 (by rw [hcore.2.1, hcf3]; exact hprec) h
        refine ⟨by rw [hrec.1, hcore.1, hcf2], by rw [hrec.2.1, hcore.2.1, hcf3], ?_, ?_⟩
        · intro hd
          have hd1 : t1.downhill = true := by rw [hcore.1, hcf2, hd]
          calc s2.f_x_best ≤ t1.f_x_best := hrec.2.2.1 hd1
            _ ≤ (clientFill f fp s).f_x_best := hcore.2.2.1 (by rw [hcf2, hd])
            _ = s.f_x_best := hcf1
        · intro hd
          have hd1 : t1.downhill = false := by rw [hcore.1, hcf2, hd]
          calc s.f_x_best = (clientFill f fp s).f_x_best := hcf1.symm
            _ ≤ t1.f_x_best := hcore.2.2.2 (by rw [hcf2, hd])
            _ ≤ s2.f_x_best := hrec.2.2.2 hd1
    | err e t1 =>
      rw [hst] at h
      obtain rfl := Option.some.inj h
      have hcore := @step_core O fuel (clientFill f fp s) t1 hp2 (by rw [hst]; rfl)
      refine ⟨by rw [hcore.1, hcf2], by rw [hcore.2.1, hcf3], ?_, ?_⟩
      · intro hd
        calc t1.f_x_best ≤ (clientFill f fp s).f_x_best := hcore.2.2.1 (by rw [hcf2, hd])
          _ = s.f_x_best := hcf1
      · intro hd
        calc s.f_x_best = (clientFill f fp s).f_x_best := hcf1.symm
          _ ≤ t1.f_x_best := hcore.2.2.2 (by rw [hcf2, hd])
    | fuelOut =>
      rw [hst] at h
      exact Option.noConfusion h

/-! ## Claim theorems -/

/-- C1, corrected. Normal candidates are always within bounds: every coordinate
of the point `generate_next` places into `x_cand` lies within
`[range_min[i], range_max[i]]`. For the reanneal probe, `generate_delta_parameter`
tries `x_i·(1+delta_param)` and flips to `x_i·(1−delta_param)` when that leaves
the bounds, without re-checking: a probe coordinate is within the bounds exactly
when at least one of the two perturbed values is, and can therefore lie outside
them. -/
theorem c1_candidate_always_probe_conditionally_in_bounds
    (O : Oracle) (fuel : ℕ) (s s2 : AnnealState) (x_start : List ℚ) (i : ℕ)
    (hgen : generate_next O fuel s = some s2)
    (hx : s.x.length = s.D) (hT : s.T_k.length = s.D)
    (hxs : x_start.length = s.D) (hlo : s.range_min.length = s.D)
    (hhi : s.range_max.length = s.D) (hiD : i < s.D) :
    (∀ j, j < s2.x_cand.length →
        s.range_min.getD j 0 ≤ s2.x_cand.getD j 0 ∧ s2.x_cand.getD j 0 ≤ s.range_max.getD j 0)
    ∧ ((s.range_min.getD i 0 ≤ (generate_delta_parameter s x_start).getD i 0
          ∧ (generate_delta_parameter s x_start).getD i 0 ≤ s.range_max.getD i 0)
        ↔ ((s.range_min.getD i 0 ≤ x_start.getD i 0 * (1 + s.delta_param)
              ∧ x_start.getD i 0 * (1 + s.delta_param) ≤ s.range_max.getD i 0)
            ∨ (s.range_min.getD i 0 ≤ x_start.getD i 0 * (1 - s.delta_param)
              ∧ x_start.getD i 0 * (1 - s.delta_param) ≤ s.range_max.getD i 0))) := by
  constructor
  · intro j hj
    unfold generate_next at hgen
    rcases hloop : generate_loop O s fuel s.rngIndex with - | ⟨xn, idx⟩
    · rw [hloop] at hgen; cases hgen
    · rw [hloop] at hgen
      obtain ⟨hle, hge, jj, rfl⟩ := generate_loop_bounds hloop
      have hlen : (genCandidate O s jj).length = s.D := genCandidate_length hx hT jj
      cases hgen
      have hj2 : j < s.D := by
        simpa [hlen] using hj
      exact ⟨vgeB_getD _ _ hge j (by rw [hlen]; exact hj2) (by rw [hlo]; exact hj2),
        vleB_getD _ _ hle j (by rw [hlen]; exact hj2) (by rw [hhi]; exact hj2)⟩
  · have hg : (generate_delta_parameter s x_start).getD i 0 =
        (if s.range_max.getD i 0 < x_start.getD i 0 * (1 + s.delta_param)
            ∨ x_start.getD i 0 * (1 + s.delta_param) < s.range_min.getD i 0
          then x_start.getD i 0 * (1 - s.delta_param)
          else x_start.getD i 0 * (1 + s.delta_param)) := by
      unfold generate_delta_parameter
      rw [vz3_getD _ 0 x_start s.range_min s.range_max i
        (by rw [hxs]; exact hiD) (by rw [hlo]; exact hiD) (by rw [hhi]; exact hiD)]
    rw [hg]
    by_cases hout : s.range_max.getD i 0 < x_start.getD i 0 * (1 + s.delta_param)
        ∨ x_start.getD i 0 * (1 + s.delta_param) < s.range_min.getD i 0
    · rw [if_pos hout]
      have hnot : ¬ (s.range_min.getD i 0 ≤ x_start.getD i 0 * (1 + s.delta_param)
          ∧ x_start.getD i 0 * (1 + s.delta_param) ≤ s.range_max.getD i 0) := by
        rcases hout with h | h
        · rintro ⟨-, h2⟩; linarith
        · rintro ⟨h1, -⟩; linarith
      tauto
    · rw [if_neg hout]
      push_neg at hout
      constructor
      · intro h; exact Or.inl h
      · intro h
        exact ⟨hout.2, hout.1⟩

/-- The state produced by one successful candidate generation from the scenario
state (the zero offset of `constOracle` keeps the candidate at [5]), used by the
C1 witness. -/
def c1wState : AnnealState :=
  { s0c with x_cand := [5], rngIndex := 1, num_generated := 1, num_generated_recently := 1 }

/-- Witness for C1: the bounds facts evaluated at the concrete scenario state. -/
theorem c1_witness :
    (∀ j, j < c1wState.x_cand.length →
        s0c.range_min.getD j 0 ≤ c1wState.x_cand.getD j 0
          ∧ c1wState.x_cand.getD j 0 ≤ s0c.range_max.getD j 0)
    ∧ ((s0c.range_min.getD 0 0 ≤ (generate_delta_parameter s0c [5]).getD 0 0
          ∧ (generate_delta_parameter s0c [5]).getD 0 0 ≤ s0c.range_max.getD 0 0)
        ↔ ((s0c.range_min.getD 0 0 ≤ ([5] : List ℚ).getD 0 0 * (1 + s0c.delta_param)
              ∧ ([5] : List ℚ).getD 0 0 * (1 + s0c.delta_param) ≤ s0c.range_max.getD 0 0)
            ∨ (s0c.range_min.getD 0 0 ≤ ([5] : List ℚ).getD 0 0 * (1 - s0c.delta_param)
              ∧ ([5] : List ℚ).getD 0 0 * (1 - s0c.delta_param) ≤ s0c.range_max.getD 0 0))) :=
  c1_candidate_always_probe_conditionally_in_bounds constOracle 1 s0c c1wState [5] 0
    (by norm_num [generate_next, generate_loop, genCandidate, vz3, vmap2, rsign, vleB, vgeB,
        s0c, c1wState, init, mkAnneal, constOracle, resizeTo, vmean, castUInt,
        List.range_succ])
    (by norm_num [s0c, init, mkAnneal, resizeTo])
    (by norm_num [s0c, init, mkAnneal, resizeTo, vmap2, constOracle])
    (by norm_num [s0c, init, mkAnneal, resizeTo])
    (by norm_num [s0c, init, mkAnneal, resizeTo])
    (by norm_num [s0c, init, mkAnneal, resizeTo])
    (by norm_num [s0c, init, mkAnneal])

/-- Counterexample for C1 as stated: from a reachable state (best point at the
upper bound 1 of the range [0.995, 1], default `delta_param` = 0.01, forced
reanneal due), the reanneal test fires and the probe point it asks the caller to
evaluate is 0.99, below `range_min[0]` = 0.995. -/
theorem c1_counterexample :
    (reanneal_test cex1).1 = true
    ∧ (reanneal_test cex1).2.x_plusdelta.getD 0 0 < cex1.range_min.getD 0 0 := by
  norm_num [reanneal_test, cex1, accepted_vs_generated, min_steps_to_reanneal,
    generate_delta_parameter, vz3, eps]

/-- C2, code bug in `AdaptiveAnneal::acceptance_check`. At an acceptance argument
of −1 the (stand-in) exponential gives p = 1/2 and the uniform draw is also 1/2:
the clamped inclusive rule of the claim (and of `Anneal::acceptance_check`)
accepts, `min(1,p) ≥ u`; the unclamped strict rule of
`AdaptiveAnneal::acceptance_check` (`p > u`, no clamp) rejects. -/
theorem c2_adaptive_acceptance_diverges :
    annealAcceptDecision rexpHalf 1 0 (1 - eps) (1/2) = true
    ∧ adaptiveAcceptDecision rexpHalf 1 0 (1 - eps) (1/2) = false
    ∧ ((1:ℚ)/2 ≤ min 1 (rexpHalf (-(1 - 0) / (eps + (1 - eps))))) := by
  norm_num [annealAcceptDecision, adaptiveAcceptDecision, rexpHalf, eps]

/-- C4, code bug in `Anneal::accepted_vs_generated`. With 1 recently-accepted
out of 2,000,000 recently-generated the true accepted:generated ratio 1/2000000
is below the default threshold 1e-6, yet the reanneal test does not fire
(20 steps since last reanneal, past the grace period of 10, below the forced
ceiling of 100): the function computes
`num_accepted_recently + 1/(num_generated_recently + 1)` — C++ operator
precedence — instead of the documented ratio. -/
theorem c4_reanneal_ratio_precedence_bug :
    min_steps_to_reanneal ≤ cex4.k_r
    ∧ cex4.k_r < cex4.reanneal_after_steps
    ∧ ((cex4.num_accepted_recently : ℚ) / (cex4.num_generated_recently : ℚ)
        < cex4.acc_gen_reanneal_ratio)
    ∧ accepted_vs_generated cex4 = 2000002 / 2000001
    ∧ (reanneal_test cex4).1 = false := by
  norm_num [reanneal_test, cex4, accepted_vs_generated, min_steps_to_reanneal]

/-- The state `step` leaves behind when a stop condition fires: only the call
counter, the protocol state and the recorded reason change. -/
def stoppedAt (s : AnnealState) (r : Anneal_StopCondition) : AnnealState :=
  { s with steps := s.steps + 1, state := .ReadyToStop, reason_for_exit := r }

lemma state_compute_ne_computeSet :
    (Anneal_State.NeedToCompute = Anneal_State.NeedToComputeSet) = False := by simp

lemma state_compute_ne_readyToStop :
    (Anneal_State.NeedToCompute = Anneal_State.ReadyToStop) = False := by simp

lemma stop_check_steps_update (s : AnnealState) (n : ℕ) :
    stop_check { s with steps := n } = stop_check s := rfl

lemma tangentsOf_steps_update (s : AnnealState) (n : ℕ) :
    tangentsOf { s with steps := n } = tangentsOf s := rfl

/-- C5, corrected. `stop_check` examines only `T_k[0]`, not the minimum over all
dimensions: whenever the optional condition (1) does not fire and the FIRST
dimension's temperature has decayed to the numeric floor, the next `step` call
moves to `ReadyToStop` recording `T_k_less_than_epsilon` (and mutates nothing but
the step counter). -/
theorem c5_first_dimension_floor_stops (O : Oracle) (fuel : ℕ) (s : AnnealState)
    (h1 : (s.exit_at_T_f && vltB s.T_k s.T_f) = false)
    (h2 : s.T_k.getD 0 0 ≤ eps) :
    step O fuel s = .ok (stoppedAt s .T_k_less_than_epsilon) := by
  have hstop : stop_check { s with steps := s.steps + 1 } = some .T_k_less_than_epsilon := by
    rw [stop_check_steps_update]
    unfold stop_check
    rw [h1, if_neg Bool.false_ne_true, if_pos h2]
  simp only [step, hstop]
  rfl

/-- Witness for C5's amended theorem at a concrete two-dimensional state whose
first temperature sits at the floor. -/
theorem c5_witness :
    (wit5.exit_at_T_f && vltB wit5.T_k wit5.T_f) = false ∧ wit5.T_k.getD 0 0 ≤ eps
    ∧ step constOracle 2 wit5 = .ok (stoppedAt wit5 .T_k_less_than_epsilon) :=
  ⟨by norm_num [wit5, cex5], by norm_num [wit5, cex5, eps],
    c5_first_dimension_floor_stops constOracle 2 wit5
      (by norm_num [wit5, cex5]) (by norm_num [wit5, cex5, eps])⟩

set_option maxHeartbeats 2000000 in
/-- Counterexample for C5 as stated: in a reachable post-reanneal state the
minimum per-dimension temperature (dimension 1, at eps/2) is at the floor while
`T_k[0]` = 1, condition (1) is off, yet the next `step` call completes normally
and leaves the machine in `NeedToCompute` with no exit reason recorded. -/
theorem c5_counterexample :
    min (cex5.T_k.getD 0 0) (cex5.T_k.getD 1 0) ≤ eps
    ∧ cex5.exit_at_T_f = false
    ∧ (stateOf (step constOracle 2 cex5)).map AnnealState.state = some .NeedToCompute
    ∧ (stateOf (step constOracle 2 cex5)).map AnnealState.reason_for_exit = some .Unknown := by
  norm_num [step, stop_check, vltB, cooling_schedule, acceptance_check, annealAcceptDecision,
    vmean, vmap2, generate_next, generate_loop, genCandidate, vz3, rsign, vleB, vgeB,
    reanneal_test, accepted_vs_generated, min_steps_to_reanneal, stateOf, constOracle,
    cex5, eps, List.range_succ, state_compute_ne_computeSet, state_compute_ne_readyToStop]

/-- C6, confirmed. If the machine is waiting on probe objectives, no stop
condition fires, and the tangent estimate contains a non-finite entry (for
example because the caller stored NaN as the probe objective), then the next
`step` call raises the fatal `nanTangents` error; the state the object is left
in has its tangents written but `T_k` and `T_cost` untouched. -/
theorem c6_nonfinite_tangents_fatal (O : Oracle) (fuel : ℕ) (s : AnnealState)
    (hstate : s.state = .NeedToComputeSet)
    (hstop : stop_check s = none)
    (hnan : (tangentsOf s).any (fun t => t.isNone) = true) :
    step O fuel s = .err .nanTangents { s with steps := s.steps + 1, tangents := tangentsOf s }
    ∧ ∀ e s2, step O fuel s = .err e s2 → s2.T_k = s.T_k ∧ s2.T_cost = s.T_cost := by
  have hmain : step O fuel s =
      .err .nanTangents { s with steps := s.steps + 1, tangents := tangentsOf s } := by
    unfold step
    dsimp only
    rw [stop_check_steps_update, hstop]
    dsimp only
    rw [hstate, if_pos rfl]
    unfold complete_reanneal
    rw [show tangentsOf { s with steps := s.steps + 1, state := Anneal_State.NeedToComputeSet }
        = tangentsOf s from rfl]
    rw [if_pos hnan]
  refine ⟨hmain, ?_⟩
  intro e s2 h
  rw [hmain] at h
  cases h
  exact ⟨rfl, rfl⟩

/-- Witness for C6: the NaN-probe scenario at a concrete one-dimensional state. -/
theorem c6_witness :
    wit6.state = .NeedToComputeSet ∧ stop_check wit6 = none
    ∧ (tangentsOf wit6).any (fun t => t.isNone) = true
    ∧ (step constOracle 2 wit6 =
        .err .nanTangents { wit6 with steps := wit6.steps + 1, tangents := tangentsOf wit6 }
      ∧ ∀ e s2, step constOracle 2 wit6 = .err e s2 →
          s2.T_k = wit6.T_k ∧ s2.T_cost = wit6.T_cost) :=
  ⟨by norm_num [wit6], by norm_num [wit6, stop_check, eps],
    by norm_num [wit6, tangentsOf],
    c6_nonfinite_tangents_fatal constOracle 2 wit6 (by norm_num [wit6])
      (by norm_num [wit6, stop_check, eps]) (by norm_num [wit6, tangentsOf])⟩

/-- C7, confirmed. When reanneal completion finds the tangent estimate all-zero
(no non-finite entries), it doubles `delta_param` and returns: no error is
raised and `T_k`, `T_cost`, `k`, `k_cost` (and `k_r`) are unchanged on that
cycle. -/
theorem c7_zero_tangents_defer (O : Oracle) (s : AnnealState)
    (hne : tangentsOf s ≠ [])
    (hz : ∀ t ∈ tangentsOf s, t = some 0) :
    complete_reanneal O s =
      .inr { s with tangents := tangentsOf s, delta_param := s.delta_param * 2 }
    ∧ ∀ s2, complete_reanneal O s = .inr s2 →
        s2.T_k = s.T_k ∧ s2.T_cost = s.T_cost ∧ s2.k = s.k ∧ s2.k_cost = s.k_cost
          ∧ s2.k_r = s.k_r ∧ s2.delta_param = s.delta_param * 2 := by
  have hno : (tangentsOf s).any (fun t => t.isNone) = false := by
    rw [List.any_eq_false]
    intro t ht
    rw [hz t ht]
    simp
  have hhas : ((tangentsOf s).map (fun t => t.getD 0)).any (fun t => t = 0) = true := by
    obtain ⟨t, ts, hts⟩ : ∃ t ts, tangentsOf s = t :: ts := by
      rcases h : tangentsOf s with - | ⟨t, ts⟩
      · exact absurd h hne
      · exact ⟨t, ts, rfl⟩
    have ht0 : t = some 0 := hz t (by rw [hts]; exact List.mem_cons_self t ts)
    rw [hts, ht0]
    simp
  have hmain : complete_reanneal O s =
      .inr { s with tangents := tangentsOf s, delta_param := s.delta_param * 2 } := by
    unfold complete_reanneal
    simp only [hno, hhas, if_pos rfl, reduceIte, Bool.false_eq_true, if_false]
  refine ⟨hmain, ?_⟩
  intro s2 h
  rw [hmain] at h
  cases h
  exact ⟨rfl, rfl, rfl, rfl, rfl, rfl⟩

/-- Witness for C7: the zero-tangent scenario (probe objective equal to `f_x`)
at a concrete one-dimensional state with `delta_param` = 1/100. -/
theorem c7_witness :
    tangentsOf wit7 ≠ []
    ∧ (∀ t ∈ tangentsOf wit7, t = some 0)
    ∧ (complete_reanneal constOracle wit7 =
        .inr { wit7 with tangents := tangentsOf wit7, delta_param := wit7.delta_param * 2 }
      ∧ ∀ s2, complete_reanneal constOracle wit7 = .inr s2 →
          s2.T_k = wit7.T_k ∧ s2.T_cost = wit7.T_cost ∧ s2.k = wit7.k
            ∧ s2.k_cost = wit7.k_cost ∧ s2.k_r = wit7.k_r
            ∧ s2.delta_param = wit7.delta_param * 2) :=
  ⟨by norm_num [wit7, tangentsOf, eps], by norm_num [wit7, tangentsOf, eps],
    c7_zero_tangents_defer constOracle wit7 (by norm_num [wit7, tangentsOf, eps])
      (by norm_num [wit7, tangentsOf, eps])⟩

/-! ## Evaluation of the constant-objective scenario run -/

lemma castUInt_one : castUInt 1 = 1 := rfl

lemma max_one_eps : max (1 : ℚ) eps = 1 := by norm_num [eps]

lemma one_le_eps_iff : ((1 : ℚ) ≤ eps) = False := by norm_num [eps]

lemma zero_le_eps_iff : ((0 : ℚ) ≤ eps) = True := by norm_num [eps]

lemma eps_lt_zero_iff : (eps < 0) = False := by norm_num [eps]

lemma s0c_eval : s0c =
    { f_x_best_repeat_max := 1, x_cand := [5], f_x_cand := fmaxT, x := [5],
      f_x := fmaxT, x_best := [5], f_x_best := fmaxT, state := .NeedToCompute, D := 1,
      k_f := 1, T_k := [1], T_0 := [1], T_f := [1], m := [1], n := [1], c := [1],
      c_cost := [1], T_cost_0 := [1], T_cost := [1], range_min := [0], range_max := [10],
      rdelta := [10], rmeans := [5], tangents := [some 1] } := by
  norm_num [s0c, init, mkAnneal, constOracle, resizeTo, vmap2, vmean, castUInt_one]

/-- The scenario state after one step: the initial point was evaluated at the
constant objective value `c`, accepted, and installed as the best. -/
def c8s1 (c : ℚ) : AnnealState :=
  { f_x_best_repeat_max := 1, x_cand := [5], f_x_cand := c, x := [5],
    f_x := c, x_best := [5], f_x_best := c, state := .NeedToCompute, D := 1,
    k_f := 1, T_k := [1], T_0 := [1], T_f := [1], m := [1], n := [1], c := [1],
    c_cost := [1], T_cost_0 := [1], T_cost := [1], range_min := [0], range_max := [10],
    rdelta := [10], rmeans := [5], tangents := [some 1],
    num_generated := 1, num_generated_recently := 1, num_improved := 1,
    num_accepted := 1, num_accepted_best := 1, steps := 1,
    param_hist_accepted := [[5]], f_param_hist_accepted := [c],
    k := 2, k_r := 1, k_cost := 1, rngIndex := 2 }

/-- The scenario state after two steps: a second candidate with the same
objective value was accepted and counted as a repeat of the best. -/
def c8s2 (c : ℚ) : AnnealState :=
  { f_x_best_repeat_max := 1, x_cand := [5], f_x_cand := c, x := [5],
    f_x := c, x_best := [5], f_x_best := c, f_x_best_repeats := 1, state := .NeedToCompute,
    D := 1, k_f := 1, T_k := [1], T_0 := [1], T_f := [1], m := [1], n := [1], c := [1],
    c_cost := [1], T_cost_0 := [1], T_cost := [1], range_min := [0], range_max := [10],
    rdelta := [10], rmeans := [5], tangents := [some 1],
    num_generated := 2, num_generated_recently := 2, num_improved := 1, num_worse := 1,
    num_worse_accepted := 1, num_accepted := 2, num_accepted_best := 1,
    num_accepted_recently := 1, steps := 2,
    param_hist_accepted := [[5], [5]], f_param_hist_accepted := [c, c],
    k := 3, k_r := 2, k_cost := 2, rngIndex := 4 }

/-- The scenario state after three steps: the repeat limit fired. -/
def c8s3 (c : ℚ) : AnnealState :=
  { c8s2 c with
    f_x_cand := c
    steps := 3
    state := .ReadyToStop
    reason_for_exit := .f_x_best_repeated }

lemma half_le_min_one : decide ((1:ℚ)/2 ≤ min 1 1) = true := by norm_num

lemma half_sub_half : (1:ℚ)/2 - 1/2 = 0 := by norm_num

lemma zero_lt_zero_rat : ((0:ℚ) < 0) = False := by norm_num

lemma dec_five_le_ten : decide ((5:ℚ) ≤ 10) = true := by norm_num

lemma dec_zero_le_five : decide ((0:ℚ) ≤ 5) = true := by norm_num

lemma nat_one_le_zero : ((1:ℕ) ≤ 0) = False := by norm_num

lemma nat_one_le_one : ((1:ℕ) ≤ 1) = True := by norm_num

/-! Intermediate states of the first `step` call on the constant-objective
scenario, written out literally so that each phase of `step` can be evaluated
by a small simp set. -/

def cS10 (c : ℚ) : AnnealState :=
  { f_x_best_repeat_max := 1, x_cand := [5], f_x_cand := c, x := [5],
    f_x := fmaxT, x_best := [5], f_x_best := fmaxT, state := .NeedToCompute, D := 1,
    k_f := 1, T_k := [1], T_0 := [1], T_f := [1], m := [1], n := [1], c := [1],
    c_cost := [1], T_cost_0 := [1], T_cost := [1], range_min := [0], range_max := [10],
    rdelta := [10], rmeans := [5], tangents := [some 1] }

def cS11 (c : ℚ) : AnnealState :=
  { cS10 c with
    steps := 1 }

def cS13 (c : ℚ) : AnnealState :=
  { cS10 c with
    steps := 1
    rngIndex := 1
    num_improved := 1
    k_cost := 1
    num_accepted := 1
    num_accepted_best := 1
    f_x := c
    f_x_best := c
    param_hist_accepted := [[5]]
    f_param_hist_accepted := [c] }

def cS14 (c : ℚ) : AnnealState :=
  { cS13 c with
    rngIndex := 2
    num_generated := 1
    num_generated_recently := 1 }

def cS15 (c : ℚ) : AnnealState :=
  { cS14 c with
    k := 2
    k_r := 1 }

lemma s1_fill (c : ℚ) : clientFill (fun _ => c) (fun _ => some c) s0c = cS10 c := by
  rw [s0c_eval]; rfl

lemma s1_fold1 (c : ℚ) :
    ({ cS10 c with steps := (cS10 c).steps + 1 } : AnnealState) = cS11 c := rfl

lemma s1_stop (c : ℚ) : stop_check (cS11 c) = none := by
  simp only [stop_check, cS11, cS10, List.getD, List.get?, Option.getD_some,
    Bool.false_and, Bool.false_eq_true, if_false, one_le_eps_iff, nat_one_le_zero]

lemma s1_cool (c : ℚ) : cooling_schedule constOracle (cS11 c) = cS11 c := by
  simp only [cooling_schedule, cS11, cS10, constOracle, vmap2, List.zipWith, one_mul,
    max_one_eps]

set_option maxHeartbeats 1000000 in
lemma s1_acc (c : ℚ) (h1 : c < fmaxT) (h2 : ¬(|c - fmaxT| ≤ eps))
    (h3 : c - fmaxT + eps < 0) :
    acceptance_check constOracle (cS11 c) = cS13 c := by
  have hb1 : decide (c < fmaxT) = true := decide_eq_true h1
  have hb2 : (|c - fmaxT| ≤ eps) = False := eq_false h2
  have hb3 : (c - fmaxT + eps < 0) = True := eq_true h3
  simp only [acceptance_check, annealAcceptDecision, cS11, cS10, cS13, constOracle,
    vmean, List.sum_cons, List.sum_nil, List.length, add_zero, zero_add, Nat.cast_one,
    div_one, half_le_min_one, hb1, hb2, hb3, Bool.true_and, Bool.not_true,
    Bool.false_and, Bool.or_false, Bool.and_false, Bool.false_eq_true, if_false,
    if_true, eq_self_iff_true, true_and, and_true, false_and, and_false, true_or,
    or_false, false_or, List.nil_append]

lemma s1_gen (c : ℚ) : generate_next constOracle 3 (cS13 c) = some (cS14 c) := by
  simp only [generate_next, generate_loop, genCandidate, cS13, cS10, cS14, constOracle,
    vz3, vmap2, rsign, vleB, vgeB, List.range_succ, List.range_zero, List.map,
    List.zipWith, List.nil_append, add_zero, zero_add, half_sub_half, zero_lt_zero_rat,
    if_false, zero_mul, mul_zero, one_mul, dec_five_le_ten, dec_zero_le_five,
    Bool.and_self, Bool.and_true, Bool.true_and, if_true, eq_self_iff_true,
    show (1:ℕ) + 1 = 2 from rfl]

lemma s1_fold2 (c : ℚ) :
    ({ cS14 c with k := (cS14 c).k + 1, k_r := (cS14 c).k_r + 1 } : AnnealState) = cS15 c := rfl

lemma s1_rean (c : ℚ) : reanneal_test (cS15 c) = (false, cS15 c) := by
  simp only [reanneal_test, cS15, cS14, cS13, cS10, min_steps_to_reanneal]
  rw [if_pos (by norm_num : (1:ℕ) < 10)]

lemma s1_final (c : ℚ) : ({ cS15 c with state := .NeedToCompute } : AnnealState) = c8s1 c := rfl

/-- Evaluates one successful `step` phase by phase: given the results of the
stop check, the cooling schedule, the acceptance check, the generation loop and
the reanneal test, it assembles the step's overall result. -/
lemma step_eval_ok (O : Oracle) (fuel : ℕ) (s t u v w : AnnealState)
    (hstop : stop_check { s with steps := s.steps + 1 } = none)
    (hstate : ¬(s.state = Anneal_State.NeedToComputeSet))
    (hcool : cooling_schedule O { s with steps := s.steps + 1 } = t)
    (hacc : acceptance_check O t = u)
    (hgen : generate_next O fuel u = some v)
    (henable : v.enable_reanneal = true)
    (hrean : reanneal_test { v with k := v.k + 1, k_r := v.k_r + 1 } = (false, w)) :
    step O fuel s = .ok { w with state := .NeedToCompute } := by
  unfold step
  dsimp only
  rw [hstop]
  dsimp only
  rw [if_neg hstate]
  dsimp only
  rw [hcool, hacc, hgen]
  dsimp only
  rw [if_pos henable, hrean]
  dsimp only
  simp only [Bool.false_eq_true, if_false]

/-- A `step` call on which the stop check fires returns the stopped state. -/
lemma step_eval_stopped (O : Oracle) (fuel : ℕ) (s : AnnealState) (r : Anneal_StopCondition)
    (hstop : stop_check { s with steps := s.steps + 1 } = some r) :
    step O fuel s = .ok (stoppedAt s r) := by
  simp only [step, hstop]
  rfl

lemma c8_step1 (c : ℚ) (h1 : c < fmaxT) (h2 : ¬(|c - fmaxT| ≤ eps))
    (h3 : c - fmaxT + eps < 0) :
    step constOracle 3 (clientFill (fun _ => c) (fun _ => some c) s0c) = .ok (c8s1 c) := by
  rw [s1_fill]
  have hstep := step_eval_ok constOracle 3 (cS10 c) (cS11 c) (cS13 c) (cS14 c) (cS15 c)
    (by rw [s1_fold1]; exact s1_stop c)
    (by simp [cS10])
    (by rw [s1_fold1]; exact s1_cool c)
    (s1_acc c h1 h2 h3)
    (s1_gen c)
    rfl
    (by rw [s1_fold2]; exact s1_rean c)
  rw [s1_final] at hstep
  exact hstep

/-! Intermediate states of the second `step` call. -/

def cS21 (c : ℚ) : AnnealState :=
  { c8s1 c with
    steps := 2 }

def cS23 (c : ℚ) : AnnealState :=
  { c8s1 c with
    steps := 2
    rngIndex := 3
    num_worse := 1
    num_worse_accepted := 1
    k_cost := 2
    num_accepted := 2
    num_accepted_recently := 1
    f_x_best_repeats := 1
    f_x := c
    param_hist_accepted := [[5], [5]]
    f_param_hist_accepted := [c, c] }

def cS24 (c : ℚ) : AnnealState :=
  { cS23 c with
    rngIndex := 4
    num_generated := 2
    num_generated_recently := 2 }

def cS25 (c : ℚ) : AnnealState :=
  { cS24 c with
    k := 3
    k_r := 2 }

lemma s2_fill (c : ℚ) : clientFill (fun _ => c) (fun _ => some c) (c8s1 c) = c8s1 c := rfl

lemma s2_fold1 (c : ℚ) :
    ({ c8s1 c with steps := (c8s1 c).steps + 1 } : AnnealState) = cS21 c := rfl

lemma s2_stop (c : ℚ) : stop_check (cS21 c) = none := by
  simp only [stop_check, cS21, c8s1, List.getD, List.get?, Option.getD_some,
    Bool.false_and, Bool.false_eq_true, if_false, one_le_eps_iff, nat_one_le_zero]

lemma s2_cool (c : ℚ) : cooling_schedule constOracle (cS21 c) = cS21 c := by
  simp only [cooling_schedule, cS21, c8s1, constOracle, vmap2, List.zipWith, one_mul,
    max_one_eps]

set_option maxHeartbeats 1000000 in
lemma s2_acc (c : ℚ) : acceptance_check constOracle (cS21 c) = cS23 c := by
  have hcc : decide (c < c) = false := by simp
  simp only [acceptance_check, annealAcceptDecision, cS21, c8s1, cS23, constOracle,
    vmean, List.sum_cons, List.sum_nil, List.length, add_zero, zero_add, Nat.cast_one,
    div_one, half_le_min_one, hcc, sub_self, abs_zero, zero_le_eps_iff,
    eps_lt_zero_iff, Bool.true_and, Bool.false_and, Bool.and_false, Bool.not_true,
    Bool.or_self, Bool.or_false, Bool.false_or, Bool.not_false, Bool.and_true,
    Bool.true_eq_false, Bool.false_eq_true, if_false, if_true, eq_self_iff_true,
    true_and, and_true, false_and, and_false, true_or, or_true, or_false, false_or,
    or_self, List.singleton_append, List.cons_append, List.nil_append]

lemma s2_gen (c : ℚ) : generate_next constOracle 3 (cS23 c) = some (cS24 c) := by
  simp only [generate_next, generate_loop, genCandidate, cS23, c8s1, cS24, constOracle,
    vz3, vmap2, rsign, vleB, vgeB, List.range_succ, List.range_zero, List.map,
    List.zipWith, List.nil_append, add_zero, zero_add, half_sub_half, zero_lt_zero_rat,
    if_false, zero_mul, mul_zero, one_mul, dec_five_le_ten, dec_zero_le_five,
    Bool.and_self, Bool.and_true, Bool.true_and, if_true, eq_self_iff_true,
    show (3:ℕ) + 1 = 4 from rfl]

lemma s2_fold2 (c : ℚ) :
    ({ cS24 c with k := (cS24 c).k + 1, k_r := (cS24 c).k_r + 1 } : AnnealState) = cS25 c := rfl

lemma s2_rean (c : ℚ) : reanneal_test (cS25 c) = (false, cS25 c) := by
  simp only [reanneal_test, cS25, cS24, cS23, c8s1, min_steps_to_reanneal]
  rw [if_pos (by norm_num : (2:ℕ) < 10)]

lemma s2_final (c : ℚ) : ({ cS25 c with state := .NeedToCompute } : AnnealState) = c8s2 c := rfl

lemma c8_step2 (c : ℚ) :
    step constOracle 3 (clientFill (fun _ => c) (fun _ => some c) (c8s1 c)) = .ok (c8s2 c) := by
  rw [s2_fill]
  have hstep := step_eval_ok constOracle 3 (c8s1 c) (cS21 c) (cS23 c) (cS24 c) (cS25 c)
    (by rw [s2_fold1]; exact s2_stop c)
    (by simp [c8s1])
    (by rw [s2_fold1]; exact s2_cool c)
    (s2_acc c)
    (s2_gen c)
    rfl
    (by rw [s2_fold2]; exact s2_rean c)
  rw [s2_final] at hstep
  exact hstep

/-! The third `step` call stops outright: the repeat counter has reached the
limit. -/

def cS31 (c : ℚ) : AnnealState :=
  { c8s2 c with
    steps := 3 }

lemma s3_fill (c : ℚ) : clientFill (fun _ => c) (fun _ => some c) (c8s2 c) = c8s2 c := rfl

lemma s3_fold1 (c : ℚ) :
    ({ c8s2 c with steps := (c8s2 c).steps + 1 } : AnnealState) = cS31 c := rfl

lemma s3_stop (c : ℚ) : stop_check (cS31 c) = some .f_x_best_repeated := by
  simp only [stop_check, cS31, c8s2, List.getD, List.get?, Option.getD_some,
    Bool.false_and, Bool.false_eq_true, if_false, one_le_eps_iff, nat_one_le_one,
    if_true]

lemma c8_step3 (c : ℚ) :
    step constOracle 3 (clientFill (fun _ => c) (fun _ => some c) (c8s2 c)) = .ok (c8s3 c) := by
  rw [s3_fill]
  have hstep := step_eval_stopped constOracle 3 (c8s2 c) .f_x_best_repeated
    (by rw [s3_fold1]; exact s3_stop c)
  rw [show stoppedAt (c8s2 c) .f_x_best_repeated = c8s3 c from rfl] at hstep
  exact hstep

lemma runSteps_zero (O : Oracle) (f : List ℚ → ℚ) (fp : List ℚ → Option ℚ)
    (fuel : ℕ) (s : AnnealState) : runSteps O f fp fuel 0 s = .ok s := rfl

lemma runSteps_succ_continue (O : Oracle) (f : List ℚ → ℚ) (fp : List ℚ → Option ℚ)
    (fuel n : ℕ) (s t : AnnealState)
    (hstep : step O fuel (clientFill f fp s) = .ok t)
    (hstate : ¬(t.state = Anneal_State.ReadyToStop)) :
    runSteps O f fp fuel (n + 1) s = runSteps O f fp fuel n t := by
  conv_lhs => rw [runSteps]
  rw [hstep]
  dsimp only
  rw [if_neg hstate]

lemma runSteps_succ_stop (O : Oracle) (f : List ℚ → ℚ) (fp : List ℚ → Option ℚ)
    (fuel n : ℕ) (s t : AnnealState)
    (hstep : step O fuel (clientFill f fp s) = .ok t)
    (hstate : t.state = Anneal_State.ReadyToStop) :
    runSteps O f fp fuel (n + 1) s = .ok t := by
  conv_lhs => rw [runSteps]
  rw [hstep]
  dsimp only
  rw [if_pos hstate]

lemma c8_run1 (c : ℚ) (h1 : c < fmaxT) (h2 : ¬(|c - fmaxT| ≤ eps))
    (h3 : c - fmaxT + eps < 0) :
    runSteps constOracle (fun _ => c) (fun _ => some c) 3 1 s0c = .ok (c8s1 c) := by
  rw [runSteps_succ_continue constOracle (fun _ => c) (fun _ => some c) 3 0 s0c (c8s1 c)
    (c8_step1 c h1 h2 h3) (by simp [c8s1])]
  exact runSteps_zero constOracle (fun _ => c) (fun _ => some c) 3 (c8s1 c)

lemma c8_run2 (c : ℚ) (h1 : c < fmaxT) (h2 : ¬(|c - fmaxT| ≤ eps))
    (h3 : c - fmaxT + eps < 0) :
    runSteps constOracle (fun _ => c) (fun _ => some c) 3 2 s0c = .ok (c8s2 c) := by
  rw [runSteps_succ_continue constOracle (fun _ => c) (fun _ => some c) 3 1 s0c (c8s1 c)
    (c8_step1 c h1 h2 h3) (by simp [c8s1])]
  rw [runSteps_succ_continue constOracle (fun _ => c) (fun _ => some c) 3 0 (c8s1 c) (c8s2 c)
    (c8_step2 c) (by simp [c8s2])]
  exact runSteps_zero constOracle (fun _ => c) (fun _ => some c) 3 (c8s2 c)

lemma c8_run3 (c : ℚ) (h1 : c < fmaxT) (h2 : ¬(|c - fmaxT| ≤ eps))
    (h3 : c - fmaxT + eps < 0) :
    runSteps constOracle (fun _ => c) (fun _ => some c) 3 3 s0c = .ok (c8s3 c) := by
  rw [runSteps_succ_continue constOracle (fun _ => c) (fun _ => some c) 3 2 s0c (c8s1 c)
    (c8_step1 c h1 h2 h3) (by simp [c8s1])]
  rw [runSteps_succ_continue constOracle (fun _ => c) (fun _ => some c) 3 1 (c8s1 c) (c8s2 c)
    (c8_step2 c) (by simp [c8s2])]
  exact runSteps_succ_stop constOracle (fun _ => c) (fun _ => some c) 3 0 (c8s2 c) (c8s3 c)
    (c8_step3 c) (by simp [c8s3, c8s2])

/-- C8, corrected. With `f_x_best_repeat_max = 1` and a constant finite objective,
the run stops with reason `f_x_best_repeated` — but after the SECOND accepted
candidate, not the first: the first acceptance installs the best (the repeat
counter stays 0 because it is compared against the sentinel best before the
update), the second acceptance counts as repeat 1, and the stop check sees the
counter at the start of the third step. -/
theorem c8_constant_objective_stops_after_second_acceptance (c : ℚ)
    (hc : c < fmaxT - eps) :
    runSteps constOracle (fun _ => c) (fun _ => some c) 3 3 s0c = .ok (c8s3 c)
    ∧ (c8s3 c).state = Anneal_State.ReadyToStop
    ∧ (c8s3 c).reason_for_exit = Anneal_StopCondition.f_x_best_repeated
    ∧ (c8s3 c).num_accepted = 2 := by
  have heps : (0:ℚ) < eps := by norm_num [eps]
  have h1 : c < fmaxT := by linarith
  have h3 : c - fmaxT + eps < 0 := by linarith
  have h2 : ¬(|c - fmaxT| ≤ eps) := by
    intro h
    have h4 := (abs_le.mp h).1
    linarith
  exact ⟨c8_run3 c h1 h2 h3, rfl, rfl, rfl⟩

/-- Witness for C8 at the constant objective value 7. -/
theorem c8_witness :
    (7:ℚ) < fmaxT - eps
    ∧ (runSteps constOracle (fun _ => (7:ℚ)) (fun _ => some 7) 3 3 s0c = .ok (c8s3 7)
       ∧ (c8s3 7).state = Anneal_State.ReadyToStop
       ∧ (c8s3 7).reason_for_exit = Anneal_StopCondition.f_x_best_repeated
       ∧ (c8s3 7).num_accepted = 2) :=
  ⟨by norm_num [fmaxT, eps],
   c8_constant_objective_stops_after_second_acceptance 7 (by norm_num [fmaxT, eps])⟩

/-- Counterexample to C8 as stated: after the first accepted candidate
(`num_accepted = 1` at the end of step 1) the run has NOT stopped — the machine
is back in `NeedToCompute` and a second candidate is requested. -/
theorem c8_counterexample :
    runSteps constOracle (fun _ => (7:ℚ)) (fun _ => some 7) 3 1 s0c = .ok (c8s1 7)
    ∧ (c8s1 7).num_accepted = 1
    ∧ ¬((c8s1 7).state = Anneal_State.ReadyToStop) := by
  have h1 : (7:ℚ) < fmaxT := by norm_num [fmaxT]
  have h2 : ¬(|(7:ℚ) - fmaxT| ≤ eps) := by
    rw [abs_of_neg (by norm_num [fmaxT] : (7:ℚ) - fmaxT < 0)]
    norm_num [fmaxT, eps]
  have h3 : (7:ℚ) - fmaxT + eps < 0 := by norm_num [fmaxT, eps]
  exact ⟨c8_run1 7 h1 h2 h3, rfl, by simp [c8s1]⟩

/-- C3, confirmed. Across a whole run — every step with its acceptance check,
reanneal test and reanneal completion, including a run aborted by a thrown
error — `f_x_best` never regresses: it never increases under the downhill
configuration and never decreases under the uphill configuration. -/
theorem c3_f_x_best_never_regresses (O : Oracle) (f : List ℚ → ℚ) (fp : List ℚ → Option ℚ)
    (fuel n : ℕ) (s s2 : AnnealState)
    (hprec : 0 ≤ s.objective_repeat_precision)
    (h : stateOf (runSteps O f fp fuel n s) = some s2) :
    (s.downhill = true → s2.f_x_best ≤ s.f_x_best)
    ∧ (s.downhill = false → s.f_x_best ≤ s2.f_x_best) :=
  ⟨(runSteps_core n s s2 hprec h).2.2.1, (runSteps_core n s s2 hprec h).2.2.2⟩

/-- Witness for C3 on the three-step constant-objective run. -/
theorem c3_witness :
    0 ≤ s0c.objective_repeat_precision
    ∧ stateOf (runSteps constOracle (fun _ => (7:ℚ)) (fun _ => some 7) 3 3 s0c)
        = some (c8s3 7)
    ∧ ((s0c.downhill = true → (c8s3 7).f_x_best ≤ s0c.f_x_best)
       ∧ (s0c.downhill = false → s0c.f_x_best ≤ (c8s3 7).f_x_best)) := by
  have hprec : 0 ≤ s0c.objective_repeat_precision := by
    rw [s0c_eval]; norm_num [eps]
  have h1 : (7:ℚ) < fmaxT := by norm_num [fmaxT]
  have h2 : ¬(|(7:ℚ) - fmaxT| ≤ eps) := by
    rw [abs_of_neg (by norm_num [fmaxT] : (7:ℚ) - fmaxT < 0)]
    norm_num [fmaxT, eps]
  have h3 : (7:ℚ) - fmaxT + eps < 0 := by norm_num [fmaxT, eps]
  have hrun : stateOf (runSteps constOracle (fun _ => (7:ℚ)) (fun _ => some 7) 3 3 s0c)
      = some (c8s3 7) := by
    rw [c8_run3 7 h1 h2 h3]
    rfl
  exact ⟨hprec, hrun, c3_f_x_best_never_regresses constOracle (fun _ => (7:ℚ))
    (fun _ => some 7) 3 3 s0c (c8s3 7) hprec hrun⟩

/-- C9, confirmed against the spec-modelled RNG. The step function and the whole
caller loop are functions of the construction inputs, the tunables, the
objective and the oracle; two runs whose oracles agree componentwise — in
particular, whose seeded uniform streams agree — produce identical results at
every step count `n`, i.e. bit-identical trajectories. -/
theorem c9_fixed_seed_deterministic (O1 O2 : Oracle) (f : List ℚ → ℚ)
    (fp : List ℚ → Option ℚ) (fuel n : ℕ) (params : List ℚ) (ranges : List (ℚ × ℚ))
    (hexp : O1.rexp = O2.rexp) (hlog : O1.rlog = O2.rlog)
    (hpow : O1.rpow = O2.rpow) (hdraws : O1.draws = O2.draws) :
    runSteps O1 f fp fuel n (init O1 (mkAnneal params ranges))
      = runSteps O2 f fp fuel n (init O2 (mkAnneal params ranges)) := by
  obtain ⟨e1, l1, p1, d1⟩ := O1
  obtain ⟨e2, l2, p2, d2⟩ := O2
  dsimp only at hexp hlog hpow hdraws
  subst hexp
  subst hlog
  subst hpow
  subst hdraws
  rfl

/-- Witness for C9: two textually independent copies of the same seeded oracle
drive equal two-step runs from the scenario construction. -/
theorem c9_witness :
    runSteps seededOracleA (fun _ => 7) (fun _ => some 7) 1 2
        (init seededOracleA (mkAnneal [5] [(0, 10)]))
      = runSteps seededOracleB (fun _ => 7) (fun _ => some 7) 1 2
        (init seededOracleB (mkAnneal [5] [(0, 10)])) :=
  c9_fixed_seed_deterministic seededOracleA seededOracleB (fun _ => 7) (fun _ => some 7)
    1 2 [5] [(0, 10)] rfl rfl rfl rfl

/-- A state about to run its first acceptance check: sentinel best, a finite
candidate objective, unit acceptance temperature. -/
def wit10 : AnnealState :=
  { downhill := true, f_x_best := fmaxT, f_x := fmaxT, f_x_cand := 7, T_cost := [1]
    x_cand := [5], x := [5], x_best := [9], D := 1 }

/-- C10, corrected. After `init`, `f_x`, `f_x_cand` and `f_x_best` all hold the
sentinel — largest representable when downhill, lowest when uphill — regardless
of the initial parameters, and no objective value is consulted to initialize
them; but the machine enters `NeedToCompute` with `x_cand` equal to the (resized)
initial point, so the caller's first requested evaluation IS the objective at
the initial point. An accepted candidate whose objective beats the sentinel by
more than the repeat precision becomes `x_best`/`f_x_best` — in particular the
first accepted candidate does whenever its objective is more than the precision
away from the sentinel. -/
theorem c10_init_sentinels_first_accept (O : Oracle) (s t : AnnealState)
    (hbest : t.f_x_best = (if t.downhill then fmaxT else -fmaxT))
    (hacc : annealAcceptDecision O.rexp t.f_x_cand t.f_x (vmean t.T_cost)
        (O.draws t.rngIndex) = true)
    (hlt : t.f_x_cand < fmaxT - t.objective_repeat_precision)
    (hgt : -fmaxT + t.objective_repeat_precision < t.f_x_cand) :
    ((init O s).f_x = (if s.downhill then fmaxT else -fmaxT)
      ∧ (init O s).f_x_cand = (if s.downhill then fmaxT else -fmaxT)
      ∧ (init O s).f_x_best = (if s.downhill then fmaxT else -fmaxT)
      ∧ (init O s).state = .NeedToCompute
      ∧ (init O s).x_cand = resizeTo s.x_cand s.D 0)
    ∧ ((acceptance_check O t).f_x_best = t.f_x_cand
      ∧ (acceptance_check O t).x_best = t.x_cand) := by
  have hcond : (t.downhill = true
        ∧ t.f_x_cand - t.f_x_best + t.objective_repeat_precision < 0)
      ∨ (t.downhill = false
        ∧ 0 < t.f_x_cand - t.f_x_best - t.objective_repeat_precision) := by
    cases hdw : t.downhill
    · right
      refine ⟨rfl, ?_⟩
      rw [hdw] at hbest
      simp only [Bool.false_eq_true, if_false] at hbest
      rw [hbest]
      linarith
    · left
      refine ⟨rfl, ?_⟩
      rw [hdw] at hbest
      simp only [if_true] at hbest
      rw [hbest]
      linarith
  refine ⟨⟨rfl, rfl, rfl, rfl, rfl⟩, ?_⟩
  unfold acceptance_check
  dsimp only
  rw [hacc]
  rw [if_pos rfl, if_pos hcond]
  exact ⟨rfl, rfl⟩

/-- Counterexample to C10's "never requested" part: right after `init` from the
scenario construction, the machine is in `NeedToCompute` with `x_cand` equal to
the initial point [5] — the protocol's first request to the caller is exactly
the objective at the initial point. -/
theorem c10_counterexample :
    (init constOracle (mkAnneal [5] [(0, 10)])).state = .NeedToCompute
    ∧ (init constOracle (mkAnneal [5] [(0, 10)])).x_cand = [5]
    ∧ (mkAnneal [5] [(0, 10)]).x_cand = [5] := by
  refine ⟨rfl, ?_, rfl⟩
  show resizeTo [5] ([5] : List ℚ).length 0 = [5]
  rfl

/-- Witness for C10 at the concrete pre-acceptance state `wit10`. -/
theorem c10_witness :
    ((init constOracle (mkAnneal [5] [(0, 10)])).f_x
        = (if (mkAnneal [5] [(0, 10)]).downhill then fmaxT else -fmaxT)
      ∧ (init constOracle (mkAnneal [5] [(0, 10)])).f_x_cand
        = (if (mkAnneal [5] [(0, 10)]).downhill then fmaxT else -fmaxT)
      ∧ (init constOracle (mkAnneal [5] [(0, 10)])).f_x_best
        = (if (mkAnneal [5] [(0, 10)]).downhill then fmaxT else -fmaxT)
      ∧ (init constOracle (mkAnneal [5] [(0, 10)])).state = .NeedToCompute
      ∧ (init constOracle (mkAnneal [5] [(0, 10)])).x_cand
        = resizeTo (mkAnneal [5] [(0, 10)]).x_cand (mkAnneal [5] [(0, 10)]).D 0)
    ∧ ((acceptance_check constOracle wit10).f_x_best = wit10.f_x_cand
      ∧ (acceptance_check constOracle wit10).x_best = wit10.x_cand) :=
  c10_init_sentinels_first_accept constOracle (mkAnneal [5] [(0, 10)]) wit10
    (by norm_num [wit10])
    (by norm_num [annealAcceptDecision, constOracle, wit10, vmean, eps])
    (by norm_num [wit10, fmaxT, eps])
    (by norm_num [wit10, fmaxT, eps])

end Morph
